import Mathlib

/-!
Verification of the merge-queue repository's core logic.

The sources embedded here:
- `src/core/pr-validator.ts` : `PRValidator.validate`, `checkApproval`,
  `checkStatusChecks` — pure decision logic once the remote reads
  (PR snapshot, reviews, commit status, branch-behind query) are
  supplied as explicit arguments.
- `src/core/github-api.ts` : `GitHubAPI.updateBranch` and its internal
  `waitForBranchUpdate` poll, with the remote REST call and the sequence
  of observed head SHAs supplied as explicit arguments; thrown errors
  become `Except.error`.
- The queue processor `processPR` and `BranchUpdater.updateIfBehind`
  are present in the repository only as declaration files and tests;
  they are modelled from the specification (marked in doc comments).
-/

namespace MergeQueue

/-- One review as consumed by `checkApproval`: the review state string and
the reviewer identity (`review.user?.login`), absent when the user is null. -/
structure Review where
  state : String
  user : Option String
deriving DecidableEq, Repr

/-- One normalized check result (`CheckStatus` in `types/queue`): name,
normalized status string, optional raw conclusion. -/
structure CheckStatus where
  name : String
  status : String
  conclusion : Option String
deriving DecidableEq, Repr

/-- The checklist breakdown of a `ValidationResult` (`checks` field). -/
structure Checks where
  approved : Bool
  checksPass : Bool
  notDraft : Bool
  noBlockLabels : Bool
  upToDate : Bool
  noConflicts : Bool
deriving DecidableEq, Repr

/-- The `ValidationResult` record from `types/queue`: validity, optional
reason, optional checklist breakdown. -/
structure ValidationResult where
  valid : Bool
  reason : Option String
  checks : Option Checks
deriving DecidableEq, Repr

/-- The `{valid, reason?}` records returned by `checkApproval` and
`checkStatusChecks`. -/
structure CheckOutcome where
  valid : Bool
  reason : Option String
deriving DecidableEq, Repr

/-- The `UpdateResult` record from `types/queue`. -/
structure UpdateResult where
  success : Bool
  conflict : Bool
  sha : Option String
  error : Option String
deriving DecidableEq, Repr

/-- Terminal `MergeResult` of one processing run. -/
inductive MergeResult where
  | merged
  | failed
  | conflict
  | removed
deriving DecidableEq, Repr

/-- The configuration fields of `QueueConfig` consumed by the validator
and the queue processor. -/
structure QueueConfig where
  allowDraft : Bool
  blockLabels : List String
  requireAllChecks : Bool
  ignoreChecks : List String
  autoUpdateBranch : Bool
  maxUpdateRetries : Nat
  failedLabel : String
  conflictLabel : String
deriving DecidableEq, Repr

/-- The fields of a PR snapshot read by `PRValidator.validate`: state
string, draft flag, label names (a label's `name` may be absent),
head sha, and the mergeable tri-state (`none` = not yet computed). -/
structure PR where
  state : String
  draft : Bool
  labels : List (Option String)
  headSha : String
  mergeable : Option Bool
deriving DecidableEq, Repr

/-- Review states tracked by `checkApproval`
(`['APPROVED', 'CHANGES_REQUESTED', 'DISMISSED']`). -/
def meaningfulStates : List String := ["APPROVED", "CHANGES_REQUESTED", "DISMISSED"]

/-- Semantics of a JS `Map.set` call on a map kept as an association
list: overwrite in place when the key exists, append otherwise. -/
def mapSet (m : List (String × String)) (k v : String) : List (String × String) :=
  if m.any (fun p => p.1 == k) then
    m.map (fun p => if p.1 == k then (p.1, v) else p)
  else m ++ [(k, v)]

/-- Loop body of `checkApproval`: skip a review whose user is null,
record the review state only when it is one of the tracked states. -/
def reviewStep (m : List (String × String)) (r : Review) : List (String × String) :=
  match r.user with
  | none => m
  | some u =>
    if meaningfulStates.contains r.state then mapSet m u r.state else m

/-- The `latestByUser` map built by `checkApproval`: walk the reviews in
order, letting later tracked entries overwrite earlier ones per user. -/
def latestByUser (reviews : List Review) : List (String × String) :=
  reviews.foldl reviewStep []

/-- Source `PRValidator.checkApproval` (`src/core/pr-validator.ts`), with the
fetched review list as argument: changes-requested wins over the
no-approvals reason, at least one `APPROVED` latest state is required. -/
def checkApproval (reviews : List Review) : CheckOutcome :=
  let m := latestByUser reviews
  let hasApproval := (m.map Prod.snd).any (fun s => s == "APPROVED")
  let hasChangesRequested := (m.map Prod.snd).any (fun s => s == "CHANGES_REQUESTED")
  if hasChangesRequested then
    ⟨false, some "PR has outstanding \"changes requested\" reviews"⟩
  else if hasApproval = false then
    ⟨false, some "PR has no approving reviews"⟩
  else ⟨true, none⟩

/-- Source expression `pr.labels.map(l => l.name).filter(name => name != null)`. -/
def prLabelNames (pr : PR) : List String := pr.labels.filterMap id

/-- Source expression `config.blockLabels.filter(label => prLabels.includes(label))`. -/
def blockingLabelsOf (config : QueueConfig) (pr : PR) : List String :=
  config.blockLabels.filter (fun label => (prLabelNames pr).contains label)

/-- Ignore-list exclusion step of `checkStatusChecks` (the `checks`
local in the source): when the ignore-list is nonempty, drop every check
whose name appears in it. -/
def remainingChecks (config : QueueConfig) (allChecks : List CheckStatus) : List CheckStatus :=
  if config.ignoreChecks.length > 0 then
    allChecks.filter (fun c => !(config.ignoreChecks.contains c.name))
  else allChecks

/-- Source `PRValidator.checkStatusChecks` (`src/core/pr-validator.ts`) with the
fetched commit status list as argument: trivially valid unless all checks
are required; ignore-listed names are excluded; failures/cancellations
are reported first, then pending checks. -/
def checkStatusChecks (config : QueueConfig) (allChecks : List CheckStatus) : CheckOutcome :=
  if config.requireAllChecks = false then ⟨true, none⟩
  else
    let checks := remainingChecks config allChecks
    let failedChecks := checks.filter (fun c => c.status == "failure" || c.status == "cancelled")
    if failedChecks.length > 0 then
      ⟨false, some ("Failed checks: " ++ String.intercalate ", " (failedChecks.map CheckStatus.name))⟩
    else
      let pendingChecks := checks.filter (fun c => c.status == "pending")
      if pendingChecks.length > 0 then
        ⟨false, some ("Pending checks: " ++ String.intercalate ", " (pendingChecks.map CheckStatus.name))⟩
      else ⟨true, none⟩

/-- Source `PRValidator.validate` (`src/core/pr-validator.ts`). The remote reads
are arguments: the PR snapshot, its reviews, the commit status of its
head, and the answer of the `isBranchBehind` query. -/
def validate (config : QueueConfig) (pr : PR) (reviews : List Review)
    (commitStatus : List CheckStatus) (branchBehind : Bool) : ValidationResult :=
  if pr.state != "open" then
    ⟨false, some ("PR is " ++ pr.state), none⟩
  else if pr.draft && !config.allowDraft then
    ⟨false, some "PR is in draft state",
      some ⟨false, false, false, false, false, false⟩⟩
  else
    let notDraft := true
    let approvalResult := checkApproval reviews
    if approvalResult.valid = false then
      ⟨false, approvalResult.reason,
        some ⟨false, false, notDraft, false, false, false⟩⟩
    else
      let approved := true
      let blockingLabels := blockingLabelsOf config pr
      if blockingLabels.length > 0 then
        ⟨false, some ("PR has blocking label: " ++ String.intercalate ", " blockingLabels),
          some ⟨approved, false, notDraft, false, false, false⟩⟩
      else
        let noBlockLabels := true
        let checksPass := checkStatusChecks config commitStatus
        if checksPass.valid = false then
          ⟨false, checksPass.reason,
            some ⟨approved, false, notDraft, noBlockLabels, false, false⟩⟩
        else
          let upToDate := !branchBehind
          let noConflicts := pr.mergeable != some false
          if noConflicts = false then
            ⟨false, some "PR has merge conflicts",
              some ⟨approved, true, notDraft, noBlockLabels, upToDate, false⟩⟩
          else
            ⟨true, none,
              some ⟨approved, true, notDraft, noBlockLabels, upToDate, noConflicts⟩⟩

/-- Modelled from the spec: `BranchUpdater.updateIfBehind` — the
implementation file `src/core/branch-updater.ts` is absent from the
source tree (only its declaration file and tests are present). The
environment supplies the validator's `isBehind` answer, the remote
`updateBranch` result, and the settled outcome of the `waitForTests`
poll on the new commit. -/
structure UpdaterEnv where
  isBehind : Bool
  updateBranchResult : UpdateResult
  waitForTests : Bool
deriving DecidableEq, Repr

/-- Observable outcome of one `updateIfBehind` call: the returned
`UpdateResult` and how many times the remote branch-update operation
was requested. -/
structure UpdaterTrace where
  result : UpdateResult
  updateBranchCalls : Nat
deriving DecidableEq, Repr

/-- Modelled from the spec: `BranchUpdater.updateIfBehind` steps 1-5 of
spec section 4.2. Not behind is a no-op success with no new sha and no
remote update request; a reported conflict propagates immediately; a
non-conflict remote failure propagates; a success without a new commit
identifier is converted to a failure whose error mentions "no SHA";
otherwise the result follows the settled `waitForTests` outcome. -/
def updateIfBehind (env : UpdaterEnv) : UpdaterTrace :=
  if env.isBehind = false then ⟨⟨true, false, none, none⟩, 0⟩
  else
    let res := env.updateBranchResult
    if res.conflict then ⟨res, 1⟩
    else if res.success = false then ⟨res, 1⟩
    else
      match res.sha with
      | none => ⟨⟨false, false, none, some "Branch update succeeded but no SHA was returned"⟩, 1⟩
      | some newSha =>
        if env.waitForTests then ⟨⟨true, false, some newSha, none⟩, 1⟩
        else ⟨⟨false, false, none, some "Tests failed after branch update"⟩, 1⟩

/-- Modelled from the spec: the oracle environment of one `processPR`
run. `updateResults i` is the result of the i-th `updateIfBehind` call;
`isBehind i` the answer of the i-th staleness re-check (post-update
re-checks and the final pre-merge gate consume the same stream in call
order). -/
structure ProcessEnv where
  updateResults : Nat → UpdateResult
  isBehind : Nat → Bool

/-- How one run of the update-retry loop ended. -/
inductive LoopTag where
  | conflictT
  | failedT
  | proceedT
deriving DecidableEq, Repr

/-- Exit record of the update-retry loop: tag plus how many update
attempts and staleness re-checks were consumed. -/
structure LoopExit where
  tag : LoopTag
  updates : Nat
  behinds : Nat
deriving DecidableEq, Repr

/-- Modelled from the spec: the bounded update-retry loop of spec section
4.3 step 4. `r` is the remaining retry budget, `u` and `b` count the
update attempts and staleness re-checks consumed so far. Each attempt
calls `updateIfBehind`: a conflict or a non-conflict failure exits
immediately; on success the staleness re-check either loops again or
proceeds to the merge steps; an exhausted budget while still behind
exits as failed. -/
def updateLoop (env : ProcessEnv) : Nat → Nat → Nat → LoopExit
  | 0, u, b => ⟨.failedT, u, b⟩
  | r + 1, u, b =>
    let res := env.updateResults u
    if res.conflict then ⟨.conflictT, u + 1, b⟩
    else if res.success = false then ⟨.failedT, u + 1, b⟩
    else if env.isBehind b then updateLoop env r (u + 1) (b + 1)
    else ⟨.proceedT, u + 1, b + 1⟩

/-- Observable trace of one `processPR` run: terminal result, number of
`updateIfBehind` invocations, number of merge invocations, and the
labels applied. -/
structure ProcessTrace where
  result : MergeResult
  updateCalls : Nat
  mergeCalls : Nat
  labelsAdded : List String
deriving DecidableEq, Repr

/-- Modelled from the spec: `processPR` (spec section 4.3) — the
implementation under `src/actions/process-queue/index.ts` is absent from
the source tree (only its declaration file and tests are present).
Invalid validation fails immediately; an up-to-date branch skips the
update loop; a stale branch with auto-update disabled fails
unconditionally; otherwise the bounded update-retry loop runs; every
merge is preceded by a final staleness gate, and terminal failures and
conflicts apply the configured labels. -/
def processPR (config : QueueConfig) (validation : ValidationResult)
    (env : ProcessEnv) : ProcessTrace :=
  if validation.valid = false then ⟨.failed, 0, 0, [config.failedLabel]⟩
  else
    let upToDate := (validation.checks.map Checks.upToDate).getD false
    if upToDate then
      if env.isBehind 0 then ⟨.failed, 0, 0, [config.failedLabel]⟩
      else ⟨.merged, 0, 1, []⟩
    else if config.autoUpdateBranch = false then ⟨.failed, 0, 0, [config.failedLabel]⟩
    else
      match updateLoop env config.maxUpdateRetries 0 0 with
      | ⟨.conflictT, u, _⟩ => ⟨.conflict, u, 0, [config.conflictLabel]⟩
      | ⟨.failedT, u, _⟩ => ⟨.failed, u, 0, [config.failedLabel]⟩
      | ⟨.proceedT, u, b⟩ =>
        if env.isBehind b then ⟨.failed, u, 0, [config.failedLabel]⟩
        else ⟨.merged, u, 1, []⟩

/-- Decidable substring test mirroring JavaScript `String.includes`. -/
def charsInclude : List Char → List Char → Bool
  | [], needle => needle.isEmpty
  | c :: rest, needle => needle.isPrefixOf (c :: rest) || charsInclude rest needle

/-- String form of `haystack.includes(needle)`. -/
def strIncludes (haystack needle : String) : Bool :=
  charsInclude haystack.data needle.data

/-- Lower-casing of every character, as in `s.toLowerCase()`. -/
def strToLower (s : String) : String :=
  ⟨s.data.map Char.toLower⟩

/-- An error thrown by the underlying Octokit call, as inspected by the
catch block of `GitHubAPI.updateBranch`: whether `isGitHubError` holds,
the HTTP status if any, and the message. -/
structure RemoteError where
  isGitHub : Bool
  status : Option Nat
  message : String
deriving DecidableEq, Repr

/-- Source `GitHubAPI.waitForBranchUpdate` (`src/core/github-api.ts`): poll the
PR until its head sha differs from `previousSha`. `shas i` is the head
sha observed by the i-th fetch; the budget argument mirrors
`maxAttempts` (default 10) loop iterations followed by one final check,
and exhaustion raises the did-not-complete error. -/
def waitForBranchUpdate (shas : Nat → String) (previousSha : String) :
    Nat → Nat → Except String String
  | 0, i =>
    if shas i == previousSha then .error "Branch update did not complete in time"
    else .ok (shas i)
  | n + 1, i =>
    if shas i == previousSha then waitForBranchUpdate shas previousSha n (i + 1)
    else .ok (shas i)

/-- Source `GitHubAPI.updateBranch` (`src/core/github-api.ts`). `previousSha`
is the head sha fetched before the REST update request; `restError` is
the error thrown by that request if it failed (`none` = HTTP 202
accepted); `polledShas` feeds the `waitForBranchUpdate` poll. A 409 or a
message containing "conflict" surfaces as a conflict result; a 422
surfaces as a validation-failure result; any other thrown error — and
timeout of the poll — is rethrown (`Except.error`). -/
def updateBranch (previousSha : String) (restError : Option RemoteError)
    (polledShas : Nat → String) : Except String UpdateResult :=
  match restError with
  | some e =>
    if e.isGitHub && (e.status == some 409 || strIncludes e.message "conflict") then
      .ok ⟨false, true, none, some "Merge conflict detected"⟩
    else if e.isGitHub && e.status == some 422 then
      .ok ⟨false, strIncludes (strToLower e.message) "conflict", none,
        some ("Branch update validation failed: " ++ e.message)⟩
    else
      .error ("Failed to update branch: " ++ e.message)
  | none =>
    match waitForBranchUpdate polledShas previousSha 10 0 with
    | .ok newSha => .ok ⟨true, false, some newSha, none⟩
    | .error msg => .error ("Failed to update branch: " ++ msg)

/-- Modelled from the spec: the latest review per distinct reviewer
identity with no restriction on the review state — the literal
dependency set named by the specification ("only the latest review per
distinct reviewer identity affects the approval decision"), kept
separate so it can be compared against the source's `latestByUser`. -/
def latestReviewPerReviewer (reviews : List Review) : List (String × String) :=
  reviews.foldl
    (fun m r =>
      match r.user with
      | none => m
      | some u => mapSet m u r.state)
    []

/-- The update counter of the retry loop never exceeds the consumed
budget added to the starting count. -/
lemma updateLoop_updates_le (env : ProcessEnv) :
    ∀ r u b, (updateLoop env r u b).updates ≤ u + r := by
  intro r
  induction r with
  | zero => intro u b; simp [updateLoop]
  | succ n ih =>
    intro u b
    simp only [updateLoop]
    split
    · show u + 1 ≤ u + (n + 1)
      omega
    · split
      · show u + 1 ≤ u + (n + 1)
        omega
      · split
        · have h := ih (u + 1) (b + 1)
          omega
        · show u + 1 ≤ u + (n + 1)
          omega

/-- When every update succeeds without conflict and every staleness
re-check reports behind, the loop consumes its whole budget and fails. -/
lemma updateLoop_all_behind (env : ProcessEnv)
    (hs : ∀ i, (env.updateResults i).conflict = false ∧ (env.updateResults i).success = true)
    (hb : ∀ i, env.isBehind i = true) :
    ∀ r u b, updateLoop env r u b = ⟨.failedT, u + r, b + r⟩ := by
  intro r
  induction r with
  | zero => intro u b; simp [updateLoop]
  | succ n ih =>
    intro u b
    simp [updateLoop, (hs u).1, (hs u).2, hb b]
    have e2 : u + (n + 1) = (u + 1) + n := by omega
    have e3 : b + (n + 1) = (b + 1) + n := by omega
    rw [e2, e3]
    exact ih (u + 1) (b + 1)

/-- Skipping `k` successful-but-still-behind attempts advances the loop
counters by `k` and consumes `k` of the budget. -/
lemma updateLoop_skip (env : ProcessEnv) :
    ∀ k r u b, k ≤ r →
      (∀ i, i < k → (env.updateResults (u + i)).conflict = false ∧
        (env.updateResults (u + i)).success = true ∧ env.isBehind (b + i) = true) →
      updateLoop env r u b = updateLoop env (r - k) (u + k) (b + k) := by
  intro k
  induction k with
  | zero => intro r u b _ _; simp
  | succ n ih =>
    intro r u b hle hcond
    obtain ⟨r', rfl⟩ : ∃ r', r = r' + 1 := ⟨r - 1, by omega⟩
    have h0 := hcond 0 (by omega)
    simp only [Nat.add_zero] at h0
    simp [updateLoop, h0.1, h0.2.1, h0.2.2]
    have e2 : u + (n + 1) = (u + 1) + n := by omega
    have e3 : b + (n + 1) = (b + 1) + n := by omega
    rw [e2, e3]
    exact ih r' (u + 1) (b + 1) (by omega) (fun i hi => by
      have h := hcond (i + 1) (by omega)
      have eu : u + 1 + i = u + (i + 1) := by omega
      have eb : b + 1 + i = b + (i + 1) := by omega
      rw [eu, eb]
      exact ⟨h.1, h.2.1, h.2.2⟩)

/-- When the first `k` polled SHAs still equal the previous one and the
k-th fetch differs, the poll returns that differing SHA. -/
lemma waitForBranchUpdate_found (shas : Nat → String) (prev : String) :
    ∀ n i k, k ≤ n → (∀ j, j < k → shas (i + j) = prev) → shas (i + k) ≠ prev →
      waitForBranchUpdate shas prev n i = .ok (shas (i + k)) := by
  intro n
  induction n with
  | zero =>
    intro i k hk hj hne
    have hk0 : k = 0 := by omega
    subst hk0
    simp only [Nat.add_zero] at hne
    have hb : (shas i == prev) = false := beq_eq_false_iff_ne.mpr hne
    simp [waitForBranchUpdate, hb]
  | succ n ih =>
    intro i k hk hj hne
    cases k with
    | zero =>
      simp only [Nat.add_zero] at hne
      have hb : (shas i == prev) = false := beq_eq_false_iff_ne.mpr hne
      simp [waitForBranchUpdate, hb]
    | succ m =>
      have h0 : shas i = prev := by simpa using hj 0 (by omega)
      have hb : (shas i == prev) = true := beq_iff_eq.mpr h0
      simp only [waitForBranchUpdate, hb, if_true]
      have e : i + (m + 1) = (i + 1) + m := by omega
      rw [e] at hne ⊢
      exact ih (i + 1) m (by omega)
        (fun j hjlt => by
          have h := hj (j + 1) (by omega)
          have e2 : i + (j + 1) = (i + 1) + j := by omega
          rw [e2] at h
          exact h)
        hne

/-- When every polled SHA in the budget still equals the previous one,
the poll raises the did-not-complete error. -/
lemma waitForBranchUpdate_exhaust (shas : Nat → String) (prev : String) :
    ∀ n i, (∀ j, j ≤ n → shas (i + j) = prev) →
      waitForBranchUpdate shas prev n i = .error "Branch update did not complete in time" := by
  intro n
  induction n with
  | zero =>
    intro i hj
    have h0 : shas i = prev := by simpa using hj 0 (by omega)
    have hb : (shas i == prev) = true := beq_iff_eq.mpr h0
    simp [waitForBranchUpdate, hb]
  | succ n ih =>
    intro i hj
    have h0 : shas i = prev := by simpa using hj 0 (by omega)
    have hb : (shas i == prev) = true := beq_iff_eq.mpr h0
    simp only [waitForBranchUpdate, hb, if_true]
    exact ih (i + 1) (fun j hjle => by
      have h := hj (j + 1) (by omega)
      have e : i + (j + 1) = (i + 1) + j := by omega
      rw [e] at h
      exact h)

/-- Appending to a string whose characters disagree with the start of
the target cannot give the target. -/
lemma append_ne_of_take_ne (p t : String)
    (h : t.data.take p.data.length ≠ p.data) : ∀ s, p ++ s ≠ t := by
  intro s he
  apply h
  have hd : p.data ++ s.data = t.data := by
    have hq := congrArg String.data he
    simpa [String.data_append] using hq
  rw [← hd, List.take_left]

/-- No state string makes the not-open reason collide with the
merge-conflict reason. -/
lemma reason_state_ne (st : String) : "PR is " ++ st ≠ "PR has merge conflicts" :=
  append_ne_of_take_ne _ _ (by decide) st

/-- The blocking-label reason never collides with the merge-conflict
reason. -/
lemma reason_block_ne (s : String) :
    "PR has blocking label: " ++ s ≠ "PR has merge conflicts" :=
  append_ne_of_take_ne _ _ (by decide) s

/-- The failed-checks reason never collides with the merge-conflict
reason. -/
lemma reason_failed_ne (s : String) :
    "Failed checks: " ++ s ≠ "PR has merge conflicts" :=
  append_ne_of_take_ne _ _ (by decide) s

/-- The pending-checks reason never collides with the merge-conflict
reason. -/
lemma reason_pending_ne (s : String) :
    "Pending checks: " ++ s ≠ "PR has merge conflicts" :=
  append_ne_of_take_ne _ _ (by decide) s

/-- An invalid approval outcome carries one of the two fixed approval
reasons. -/
lemma checkApproval_reason_cases (reviews : List Review)
    (h : (checkApproval reviews).valid = false) :
    (checkApproval reviews).reason = some "PR has outstanding \"changes requested\" reviews" ∨
    (checkApproval reviews).reason = some "PR has no approving reviews" := by
  by_cases hcr :
      (((latestByUser reviews).map Prod.snd).any (fun s => s == "CHANGES_REQUESTED")) = true
  · left; simp [checkApproval, hcr]
  · by_cases hap :
        (((latestByUser reviews).map Prod.snd).any (fun s => s == "APPROVED")) = true
    · exfalso
      simp [checkApproval, hcr, hap] at h
    · right; simp [checkApproval, hcr, hap]

/-- An invalid status-check outcome carries a failed-checks or a
pending-checks reason. -/
lemma checkStatusChecks_reason_cases (config : QueueConfig) (cs : List CheckStatus)
    (h : (checkStatusChecks config cs).valid = false) :
    (∃ s, (checkStatusChecks config cs).reason = some ("Failed checks: " ++ s)) ∨
    (∃ s, (checkStatusChecks config cs).reason = some ("Pending checks: " ++ s)) := by
  by_cases hreq : config.requireAllChecks = false
  · exfalso; simp [checkStatusChecks, hreq] at h
  · by_cases hf : ((remainingChecks config cs).filter
        (fun c => c.status == "failure" || c.status == "cancelled")).length > 0
    · left
      refine ⟨String.intercalate ", " (((remainingChecks config cs).filter
        (fun c => c.status == "failure" || c.status == "cancelled")).map CheckStatus.name), ?_⟩
      simp [checkStatusChecks, hreq, hf]
    · by_cases hp : ((remainingChecks config cs).filter
          (fun c => c.status == "pending")).length > 0
      · right
        refine ⟨String.intercalate ", " (((remainingChecks config cs).filter
          (fun c => c.status == "pending")).map CheckStatus.name), ?_⟩
        simp [checkStatusChecks, hreq, hf, hp]
      · exfalso; simp [checkStatusChecks, hreq, hf, hp] at h

/-- Reviews with an absent user can be discarded without changing the
`latestByUser` fold. -/
lemma foldl_reviewStep_filter (reviews : List Review) :
    ∀ m, (reviews.filter (fun r => r.user.isSome)).foldl reviewStep m =
      reviews.foldl reviewStep m := by
  induction reviews with
  | nil => intro m; rfl
  | cons r rest ih =>
    intro m
    cases hr : r.user with
    | none =>
      have hp : (fun r : Review => r.user.isSome) r = false := by simp [hr]
      simp [List.filter_cons, hp, reviewStep, hr, ih]
    | some u =>
      have hp : (fun r : Review => r.user.isSome) r = true := by simp [hr]
      simp [List.filter_cons, hp, ih]

/-- Null-identity reviews contribute nothing to the latest-review map. -/
lemma latestByUser_filter (reviews : List Review) :
    latestByUser (reviews.filter (fun r => r.user.isSome)) = latestByUser reviews :=
  foldl_reviewStep_filter reviews []

/-- Feeding the ignore-filtered list back through the ignore-list
exclusion is the same as excluding once. -/
lemma remainingChecks_filter (config : QueueConfig) (checks : List CheckStatus) :
    remainingChecks config
        (checks.filter (fun c => !(config.ignoreChecks.contains c.name))) =
      remainingChecks config checks := by
  unfold remainingChecks
  by_cases h : config.ignoreChecks.length > 0
  · simp only [h, if_true]
    rw [List.filter_filter]
    simp
  · have hnil : config.ignoreChecks = [] := by
      cases hc : config.ignoreChecks with
      | nil => rfl
      | cons a l => exfalso; apply h; rw [hc]; simp
    simp [hnil]

/-- C1: every `processPR` run invokes the branch-update operation at
most `maxUpdateRetries` times; in the boundary case where the run enters
the update loop and every post-update staleness re-check reports the
branch still behind (with every update succeeding without conflict),
exactly `maxUpdateRetries` update attempts occur, the run terminates
with `failed`, and the merge operation is never invoked. -/
theorem claim_C1_update_retry_ceiling (config : QueueConfig)
    (validation : ValidationResult) (env : ProcessEnv) (c : Checks) :
    (processPR config validation env).updateCalls ≤ config.maxUpdateRetries ∧
    (validation.valid = true → validation.checks = some c → c.upToDate = false →
      config.autoUpdateBranch = true →
      (∀ i, (env.updateResults i).conflict = false ∧ (env.updateResults i).success = true) →
      (∀ i, env.isBehind i = true) →
      processPR config validation env =
        ⟨.failed, config.maxUpdateRetries, 0, [config.failedLabel]⟩) := by
  constructor
  · have hle := updateLoop_updates_le env config.maxUpdateRetries 0 0
    rcases heq : updateLoop env config.maxUpdateRetries 0 0 with ⟨tag, u, b⟩
    rw [heq] at hle
    simp only [Nat.zero_add] at hle
    by_cases hv : validation.valid = false
    · simp [processPR, hv]
    · by_cases hutd : (validation.checks.map Checks.upToDate).getD false = true
      · by_cases hb0 : env.isBehind 0 = true <;> simp [processPR, hv, hutd, hb0]
      · by_cases hau : config.autoUpdateBranch = false
        · simp [processPR, hv, hutd, hau]
        · cases tag
          · simp only [processPR, hv, hutd, hau, if_false, heq]
            simpa using hle
          · simp only [processPR, hv, hutd, hau, if_false, heq]
            simpa using hle
          · by_cases hbb : env.isBehind b = true
            · simp only [processPR, hv, hutd, hau, if_false, heq, hbb]
              simpa using hle
            · simp only [processPR, hv, hutd, hau, if_false, heq, hbb]
              simpa using hle
  · intro hv hc hcu hau hs hb
    have hutd : (validation.checks.map Checks.upToDate).getD false = false := by
      rw [hc]
      simpa using hcu
    have hloop := updateLoop_all_behind env hs hb config.maxUpdateRetries 0 0
    simp [processPR, hv, hutd, hau, hloop]

/-- C2: a run whose validation reports the branch up to date (so the
update loop is skipped) but whose final pre-merge staleness check
reports the branch behind terminates with `failed`, performs zero
branch-update attempts, and never invokes the merge operation. -/
theorem claim_C2_fast_path_stale_at_gate (config : QueueConfig)
    (validation : ValidationResult) (env : ProcessEnv) (c : Checks)
    (hv : validation.valid = true) (hc : validation.checks = some c)
    (hcu : c.upToDate = true) (hbehind : env.isBehind 0 = true) :
    processPR config validation env = ⟨.failed, 0, 0, [config.failedLabel]⟩ := by
  simp [processPR, hv, hc, hcu, hbehind]

/-- C3: a run with `autoUpdateBranch = false` whose validation reports
the branch behind its base terminates with `failed` without ever
invoking the branch-update operation and without invoking the merge
operation. -/
theorem claim_C3_auto_update_disabled (config : QueueConfig)
    (validation : ValidationResult) (env : ProcessEnv) (c : Checks)
    (hau : config.autoUpdateBranch = false)
    (hv : validation.valid = true) (hc : validation.checks = some c)
    (hcu : c.upToDate = false) :
    processPR config validation env = ⟨.failed, 0, 0, [config.failedLabel]⟩ := by
  simp [processPR, hv, hc, hcu, hau]

/-- C4: after `k` earlier successful non-conflicting update attempts
each followed by a still-behind re-check, a conflict reported by the
next update attempt immediately terminates the run with `conflict`
(applying the conflict label, never invoking the merge operation), and a
non-conflict failure of that attempt terminates the run with `failed`. -/
theorem claim_C4_conflict_at_any_attempt (config : QueueConfig)
    (validation : ValidationResult) (env : ProcessEnv) (c : Checks) (k : Nat)
    (hv : validation.valid = true) (hc : validation.checks = some c)
    (hcu : c.upToDate = false) (hau : config.autoUpdateBranch = true)
    (hk : k < config.maxUpdateRetries)
    (hpre : ∀ i, i < k → (env.updateResults i).conflict = false ∧
      (env.updateResults i).success = true ∧ env.isBehind i = true) :
    ((env.updateResults k).conflict = true →
      processPR config validation env = ⟨.conflict, k + 1, 0, [config.conflictLabel]⟩) ∧
    ((env.updateResults k).conflict = false → (env.updateResults k).success = false →
      processPR config validation env = ⟨.failed, k + 1, 0, [config.failedLabel]⟩) := by
  have hutd : (validation.checks.map Checks.upToDate).getD false = false := by
    rw [hc]
    simpa using hcu
  have hskip := updateLoop_skip env k config.maxUpdateRetries 0 0 (by omega)
    (fun i hi => by simpa using hpre i hi)
  simp only [Nat.zero_add] at hskip
  obtain ⟨m, hm⟩ : ∃ m, config.maxUpdateRetries - k = m + 1 :=
    ⟨config.maxUpdateRetries - k - 1, by omega⟩
  constructor
  · intro hconf
    have hloop : updateLoop env config.maxUpdateRetries 0 0 = ⟨.conflictT, k + 1, k⟩ := by
      rw [hskip, hm]
      simp [updateLoop, hconf]
    simp [processPR, hv, hutd, hau, hloop]
  · intro hnc hns
    have hloop : updateLoop env config.maxUpdateRetries 0 0 = ⟨.failedT, k + 1, k⟩ := by
      rw [hskip, hm]
      simp [updateLoop, hnc, hns]
    simp [processPR, hv, hutd, hau, hloop]

/-- C5 counterexample: two review lists with the same latest review per
distinct reviewer identity (the reviewer's latest review is a COMMENTED
one in both) on which `checkApproval` decides differently — an earlier
APPROVED review, not the latest review, determines the outcome. So the
approval decision does not depend only on the latest review per
reviewer. -/
theorem claim_C5_counterexample :
    latestReviewPerReviewer
        [⟨"APPROVED", some "alice"⟩, ⟨"COMMENTED", some "alice"⟩] =
      latestReviewPerReviewer [⟨"COMMENTED", some "alice"⟩] ∧
    checkApproval [⟨"APPROVED", some "alice"⟩, ⟨"COMMENTED", some "alice"⟩] ≠
      checkApproval [⟨"COMMENTED", some "alice"⟩] := by
  constructor
  · rfl
  · decide

/-- C5 amended: the approval decision depends only on the latest review
with state APPROVED, CHANGES_REQUESTED or DISMISSED per distinct
reviewer identity (other states such as COMMENTED are skipped, not
superseding an earlier tracked review); a reviewer who requested changes
and later approved counts as approved; the reverse ordering counts as
changes-requested, whose reason takes precedence over the no-approvals
reason; reviews with a null/absent reviewer identity are excluded
entirely. -/
theorem claim_C5_latest_tracked_review (u : String) (r1 r2 reviews : List Review) :
    (latestByUser r1 = latestByUser r2 → checkApproval r1 = checkApproval r2) ∧
    checkApproval [⟨"CHANGES_REQUESTED", some u⟩, ⟨"APPROVED", some u⟩] = ⟨true, none⟩ ∧
    checkApproval [⟨"APPROVED", some u⟩, ⟨"CHANGES_REQUESTED", some u⟩] =
      ⟨false, some "PR has outstanding \"changes requested\" reviews"⟩ ∧
    checkApproval (reviews.filter (fun r => r.user.isSome)) = checkApproval reviews := by
  refine ⟨?_, ?_, ?_, ?_⟩
  · intro h
    simp only [checkApproval, h]
  · simp [checkApproval, latestByUser, reviewStep, mapSet, meaningfulStates]
  · simp [checkApproval, latestByUser, reviewStep, mapSet, meaningfulStates]
  · simp only [checkApproval, latestByUser_filter]

/-- C6: `validate` runs its gates in the fixed order state → draft →
approval → blocking-labels → status-checks → conflicts; once a gate
fails the result is determined there (the remaining inputs no longer
matter), with the checklist fields of every unevaluated gate reported as
`false`; the not-open terminal case alone carries no checks breakdown. -/
theorem claim_C6_gate_order (config : QueueConfig) (pr : PR) (reviews : List Review)
    (cs : List CheckStatus) (b : Bool) :
    (pr.state ≠ "open" →
      validate config pr reviews cs b = ⟨false, some ("PR is " ++ pr.state), none⟩) ∧
    (pr.state = "open" → (pr.draft && !config.allowDraft) = true →
      validate config pr reviews cs b =
        ⟨false, some "PR is in draft state",
          some ⟨false, false, false, false, false, false⟩⟩) ∧
    (pr.state = "open" → (pr.draft && !config.allowDraft) = false →
      (checkApproval reviews).valid = false →
      validate config pr reviews cs b =
        ⟨false, (checkApproval reviews).reason,
          some ⟨false, false, true, false, false, false⟩⟩) ∧
    (pr.state = "open" → (pr.draft && !config.allowDraft) = false →
      (checkApproval reviews).valid = true → blockingLabelsOf config pr ≠ [] →
      validate config pr reviews cs b =
        ⟨false, some ("PR has blocking label: " ++
            String.intercalate ", " (blockingLabelsOf config pr)),
          some ⟨true, false, true, false, false, false⟩⟩) ∧
    (pr.state = "open" → (pr.draft && !config.allowDraft) = false →
      (checkApproval reviews).valid = true → blockingLabelsOf config pr = [] →
      (checkStatusChecks config cs).valid = false →
      validate config pr reviews cs b =
        ⟨false, (checkStatusChecks config cs).reason,
          some ⟨true, false, true, true, false, false⟩⟩) ∧
    (pr.state = "open" → (pr.draft && !config.allowDraft) = false →
      (checkApproval reviews).valid = true → blockingLabelsOf config pr = [] →
      (checkStatusChecks config cs).valid = true → pr.mergeable = some false →
      validate config pr reviews cs b =
        ⟨false, some "PR has merge conflicts",
          some ⟨true, true, true, true, !b, false⟩⟩) := by
  refine ⟨?_, ?_, ?_, ?_, ?_, ?_⟩
  · intro h1
    have hb1 : (pr.state != "open") = true := by simpa [bne_iff_ne] using h1
    simp [validate, hb1]
  · intro h1 h2
    simp [validate, h1, h2]
  · intro h1 h2 h3
    simp [validate, h1, h2, h3]
  · intro h1 h2 h3 h4
    have hl : 0 < (blockingLabelsOf config pr).length := List.length_pos.mpr h4
    simp [validate, h1, h2, h3, hl]
  · intro h1 h2 h3 h4 h5
    simp [validate, h1, h2, h3, h4, h5]
  · intro h1 h2 h3 h4 h5 h6
    simp [validate, h1, h2, h3, h4, h5, h6]

/-- C7: `checkStatusChecks` is trivially valid when not all checks are
required; otherwise, after removing ignore-listed names, any remaining
failure/cancelled check makes it invalid with a reason enumerating the
failing names, else any remaining pending check makes it invalid with a
reason enumerating the pending names, else it is valid; and
ignored-by-name checks never affect the outcome. -/
theorem claim_C7_status_check_evaluation (config : QueueConfig) (checks : List CheckStatus) :
    (config.requireAllChecks = false → checkStatusChecks config checks = ⟨true, none⟩) ∧
    (config.requireAllChecks = true →
      (((remainingChecks config checks).filter
          (fun c => c.status == "failure" || c.status == "cancelled")) ≠ [] →
        checkStatusChecks config checks =
          ⟨false, some ("Failed checks: " ++ String.intercalate ", "
            (((remainingChecks config checks).filter
              (fun c => c.status == "failure" || c.status == "cancelled")).map
                CheckStatus.name))⟩) ∧
      (((remainingChecks config checks).filter
          (fun c => c.status == "failure" || c.status == "cancelled")) = [] →
        ((remainingChecks config checks).filter (fun c => c.status == "pending")) ≠ [] →
        checkStatusChecks config checks =
          ⟨false, some ("Pending checks: " ++ String.intercalate ", "
            (((remainingChecks config checks).filter
              (fun c => c.status == "pending")).map CheckStatus.name))⟩) ∧
      (((remainingChecks config checks).filter
          (fun c => c.status == "failure" || c.status == "cancelled")) = [] →
        ((remainingChecks config checks).filter (fun c => c.status == "pending")) = [] →
        checkStatusChecks config checks = ⟨true, none⟩)) ∧
    checkStatusChecks config checks =
      checkStatusChecks config
        (checks.filter (fun c => !(config.ignoreChecks.contains c.name))) := by
  refine ⟨?_, ?_, ?_⟩
  · intro h
    simp [checkStatusChecks, h]
  · intro hreq
    refine ⟨?_, ?_, ?_⟩
    · intro hne
      have hl : 0 < ((remainingChecks config checks).filter
          (fun c => c.status == "failure" || c.status == "cancelled")).length :=
        List.length_pos.mpr hne
      simp [checkStatusChecks, hreq, hl]
    · intro hfe hne
      have hl : 0 < ((remainingChecks config checks).filter
          (fun c => c.status == "pending")).length := List.length_pos.mpr hne
      simp [checkStatusChecks, hreq, hfe, hl]
    · intro hfe hpe
      simp [checkStatusChecks, hreq, hfe, hpe]
  · simp only [checkStatusChecks, remainingChecks_filter]

/-- C8: `updateIfBehind` on a branch that is not behind returns a no-op
success (no new sha) without requesting a branch update; and a remote
update that reports success but supplies no new commit identifier is
converted to a failure whose error message contains "no SHA". -/
theorem claim_C8_noop_and_missing_sha (env : UpdaterEnv) :
    (env.isBehind = false →
      updateIfBehind env = ⟨⟨true, false, none, none⟩, 0⟩) ∧
    (env.isBehind = true → env.updateBranchResult.conflict = false →
      env.updateBranchResult.success = true → env.updateBranchResult.sha = none →
      updateIfBehind env =
        ⟨⟨false, false, none,
          some ("Branch update succeeded but " ++ "no SHA" ++ " was returned")⟩, 1⟩) := by
  constructor
  · intro h
    simp [updateIfBehind, h]
  · intro h hc hs hsha
    simp [updateIfBehind, h, hc, hs, hsha]

/-- C9: `updateBranch` surfaces a thrown 409/conflict-message error as a
conflict `UpdateResult` (no exception); on an accepted request it polls
the head sha, returning a success `UpdateResult` carrying the first
changed sha (observable within the bounded attempt count); exhausting
the bounded poll surfaces the did-not-complete error instead of looping;
and a non-GitHub thrown error is re-raised as a generic failure. -/
theorem claim_C9_update_branch_poll (previousSha : String)
    (restError : Option RemoteError) (polledShas : Nat → String) :
    (∀ e, restError = some e → e.isGitHub = true →
      (e.status = some 409 ∨ strIncludes e.message "conflict" = true) →
      updateBranch previousSha restError polledShas =
        .ok ⟨false, true, none, some "Merge conflict detected"⟩) ∧
    (restError = none → ∀ k, k ≤ 10 → (∀ j, j < k → polledShas j = previousSha) →
      polledShas k ≠ previousSha →
      updateBranch previousSha restError polledShas =
        .ok ⟨true, false, some (polledShas k), none⟩) ∧
    (restError = none → (∀ j, j ≤ 10 → polledShas j = previousSha) →
      updateBranch previousSha restError polledShas =
        .error ("Failed to update branch: Branch update did not complete in time")) ∧
    (∀ e, restError = some e → e.isGitHub = false →
      updateBranch previousSha restError polledShas =
        .error ("Failed to update branch: " ++ e.message)) := by
  refine ⟨?_, ?_, ?_, ?_⟩
  · intro e he hgh hcond
    subst he
    rcases hcond with h409 | hinc
    · simp [updateBranch, hgh, h409]
    · simp [updateBranch, hgh, hinc]
  · intro he k hk hj hne
    subst he
    have hfound := waitForBranchUpdate_found polledShas previousSha 10 0 k hk
      (fun j hjlt => by simpa using hj j hjlt) (by simpa using hne)
    simp [updateBranch, hfound]
  · intro he hall
    subst he
    have hex := waitForBranchUpdate_exhaust polledShas previousSha 10 0
      (fun j hjle => by simpa using hall j hjle)
    simp [updateBranch, hex]
  · intro e he hng
    subst he
    simp [updateBranch, hng]

/-- C10: with mergeable still undetermined (`none`) and every other gate
passing, `validate` returns `valid = true` with `noConflicts = true`;
and the merge-conflicts reason is produced only when the snapshot
reports `mergeable = false` explicitly. -/
theorem claim_C10_unknown_mergeable_passes (config : QueueConfig) (pr : PR)
    (reviews : List Review) (cs : List CheckStatus) (b : Bool) :
    (pr.mergeable = none → pr.state = "open" → (pr.draft && !config.allowDraft) = false →
      (checkApproval reviews).valid = true → blockingLabelsOf config pr = [] →
      (checkStatusChecks config cs).valid = true →
      validate config pr reviews cs b =
        ⟨true, none, some ⟨true, true, true, true, !b, true⟩⟩) ∧
    ((validate config pr reviews cs b).reason = some "PR has merge conflicts" →
      pr.mergeable = some false) := by
  constructor
  · intro hm h1 h2 h3 h4 h5
    simp [validate, hm, h1, h2, h3, h4, h5]
  · intro h
    by_cases h1 : pr.state = "open"
    · by_cases h2 : (pr.draft && !config.allowDraft) = true
      · simp [validate, h1, h2] at h
      · rw [Bool.not_eq_true] at h2
        by_cases h3 : (checkApproval reviews).valid = false
        · simp [validate, h1, h2, h3] at h
          rcases checkApproval_reason_cases reviews h3 with hr | hr <;>
            rw [hr] at h <;> simp at h
        · rw [Bool.not_eq_false] at h3
          by_cases h4 : 0 < (blockingLabelsOf config pr).length
          · simp [validate, h1, h2, h3, h4] at h
            exact absurd h (reason_block_ne _)
          · by_cases h5 : (checkStatusChecks config cs).valid = false
            · simp [validate, h1, h2, h3, h4, h5] at h
              rcases checkStatusChecks_reason_cases config cs h5 with ⟨s, hr⟩ | ⟨s, hr⟩ <;>
                rw [hr] at h <;> simp at h
              · exact absurd h (reason_failed_ne s)
              · exact absurd h (reason_pending_ne s)
            · rw [Bool.not_eq_false] at h5
              by_cases h6 : pr.mergeable = some false
              · exact h6
              · have hb6 : (pr.mergeable != some false) = true := bne_iff_ne.mpr h6
                simp [validate, h1, h2, h3, h4, h5, hb6] at h
    · have hb1 : (pr.state != "open") = true := by simpa [bne_iff_ne] using h1
      simp [validate, hb1] at h
      exact absurd h (reason_state_ne pr.state)

/-- A concrete configuration used by the witnesses: drafts disallowed,
two blocking labels, all checks required, one ignored check name,
auto-update on, retry ceiling 2, the default failure/conflict labels. -/
def cfgW : QueueConfig :=
  ⟨false, ["do-not-merge", "wip"], true, ["queue-run"], true, 2,
    "merge-queue-failed", "merge-queue-conflict"⟩

/-- A valid validation result that reports the branch behind. -/
def valBehindW : ValidationResult := ⟨true, none, some ⟨true, true, true, true, false, true⟩⟩

/-- A valid validation result that reports the branch up to date. -/
def valUpToDateW : ValidationResult := ⟨true, none, some ⟨true, true, true, true, true, true⟩⟩

/-- An environment whose updates always succeed and whose staleness
checks always report behind. -/
def envBehindW : ProcessEnv :=
  ⟨fun _ => ⟨true, false, some "sha-new", none⟩, fun _ => true⟩

/-- An environment whose first update succeeds and whose second reports
a conflict, with every staleness check behind. -/
def envConflictW : ProcessEnv :=
  ⟨fun i => if i == 0 then ⟨true, false, some "sha-new", none⟩
    else ⟨false, true, none, some "Merge conflict"⟩, fun _ => true⟩

/-- An environment whose first update succeeds and whose second fails
without a conflict, with every staleness check behind. -/
def envFailW : ProcessEnv :=
  ⟨fun i => if i == 0 then ⟨true, false, some "sha-new", none⟩
    else ⟨false, false, none, some "Tests failed after branch update"⟩, fun _ => true⟩

/-- Witness for C1: with retry ceiling 2 and the base always ahead, the
bound holds and exactly 2 update attempts occur before `failed`. -/
theorem claim_C1_witness :
    (processPR cfgW valBehindW envBehindW).updateCalls ≤ 2 ∧
    processPR cfgW valBehindW envBehindW = ⟨.failed, 2, 0, ["merge-queue-failed"]⟩ := by
  have h := claim_C1_update_retry_ceiling cfgW valBehindW envBehindW
    ⟨true, true, true, true, false, true⟩
  exact ⟨h.1, h.2 rfl rfl rfl rfl (fun i => ⟨rfl, rfl⟩) (fun i => rfl)⟩

/-- Witness for C2: an up-to-date validation followed by a behind answer
at the final gate fails with zero updates and no merge. -/
theorem claim_C2_witness :
    processPR cfgW valUpToDateW envBehindW = ⟨.failed, 0, 0, ["merge-queue-failed"]⟩ :=
  claim_C2_fast_path_stale_at_gate cfgW valUpToDateW envBehindW
    ⟨true, true, true, true, true, true⟩ rfl rfl rfl rfl

/-- The witness configuration with auto-update disabled. -/
def cfgNoAutoW : QueueConfig :=
  ⟨false, ["do-not-merge", "wip"], true, ["queue-run"], false, 2,
    "merge-queue-failed", "merge-queue-conflict"⟩

/-- Witness for C3: behind with auto-update disabled fails with zero
updates and no merge. -/
theorem claim_C3_witness :
    processPR cfgNoAutoW valBehindW envBehindW = ⟨.failed, 0, 0, ["merge-queue-failed"]⟩ :=
  claim_C3_auto_update_disabled cfgNoAutoW valBehindW envBehindW
    ⟨true, true, true, true, false, true⟩ rfl rfl rfl rfl

/-- Witness for C4: a conflict on the second attempt terminates with
`conflict` after exactly 2 updates, and a plain failure on the second
attempt terminates with `failed`. -/
theorem claim_C4_witness :
    processPR cfgW valBehindW envConflictW = ⟨.conflict, 2, 0, ["merge-queue-conflict"]⟩ ∧
    processPR cfgW valBehindW envFailW = ⟨.failed, 2, 0, ["merge-queue-failed"]⟩ := by
  have hc := claim_C4_conflict_at_any_attempt cfgW valBehindW envConflictW
    ⟨true, true, true, true, false, true⟩ 1 rfl rfl rfl rfl (by decide)
    (fun i hi => by
      cases i with
      | zero => exact ⟨rfl, rfl, rfl⟩
      | succ n => omega)
  have hf := claim_C4_conflict_at_any_attempt cfgW valBehindW envFailW
    ⟨true, true, true, true, false, true⟩ 1 rfl rfl rfl rfl (by decide)
    (fun i hi => by
      cases i with
      | zero => exact ⟨rfl, rfl, rfl⟩
      | succ n => omega)
  exact ⟨hc.1 rfl, hf.2 rfl rfl⟩

/-- Witness for the amended C5: a trailing COMMENTED review is inert,
CR-then-approve approves, approve-then-CR requests changes, and
null-identity reviews are removable. -/
theorem claim_C5_witness :
    checkApproval [⟨"APPROVED", some "alice"⟩, ⟨"COMMENTED", some "alice"⟩] =
      checkApproval [⟨"APPROVED", some "alice"⟩] ∧
    checkApproval [⟨"CHANGES_REQUESTED", some "bob"⟩, ⟨"APPROVED", some "bob"⟩] =
      ⟨true, none⟩ ∧
    checkApproval [⟨"APPROVED", some "bob"⟩, ⟨"CHANGES_REQUESTED", some "bob"⟩] =
      ⟨false, some "PR has outstanding \"changes requested\" reviews"⟩ ∧
    checkApproval
        ([⟨"APPROVED", some "carol"⟩, ⟨"APPROVED", none⟩].filter (fun r => r.user.isSome)) =
      checkApproval [⟨"APPROVED", some "carol"⟩, ⟨"APPROVED", none⟩] := by
  have h := claim_C5_latest_tracked_review "bob"
    [⟨"APPROVED", some "alice"⟩, ⟨"COMMENTED", some "alice"⟩]
    [⟨"APPROVED", some "alice"⟩]
    [⟨"APPROVED", some "carol"⟩, ⟨"APPROVED", none⟩]
  exact ⟨h.1 (by decide), h.2.1, h.2.2.1, h.2.2.2⟩

/-- Witness for C6: one concrete snapshot per gate, exercising every
conjunct of the gate-order theorem. -/
theorem claim_C6_witness :
    validate cfgW ⟨"closed", false, [], "h", some true⟩ [] [] false =
      ⟨false, some ("PR is " ++ "closed"), none⟩ ∧
    validate cfgW ⟨"open", true, [], "h", some true⟩ [] [] false =
      ⟨false, some "PR is in draft state",
        some ⟨false, false, false, false, false, false⟩⟩ ∧
    validate cfgW ⟨"open", false, [], "h", some true⟩ [] [] false =
      ⟨false, (checkApproval []).reason, some ⟨false, false, true, false, false, false⟩⟩ ∧
    validate cfgW ⟨"open", false, [some "wip"], "h", some true⟩
        [⟨"APPROVED", some "a"⟩] [] false =
      ⟨false, some ("PR has blocking label: " ++ String.intercalate ", "
          (blockingLabelsOf cfgW ⟨"open", false, [some "wip"], "h", some true⟩)),
        some ⟨true, false, true, false, false, false⟩⟩ ∧
    validate cfgW ⟨"open", false, [], "h", some true⟩ [⟨"APPROVED", some "a"⟩]
        [⟨"ci", "failure", none⟩] false =
      ⟨false, (checkStatusChecks cfgW [⟨"ci", "failure", none⟩]).reason,
        some ⟨true, false, true, true, false, false⟩⟩ ∧
    validate cfgW ⟨"open", false, [], "h", some false⟩ [⟨"APPROVED", some "a"⟩]
        [⟨"ci", "success", none⟩] false =
      ⟨false, some "PR has merge conflicts", some ⟨true, true, true, true, !false, false⟩⟩ := by
  refine ⟨?_, ?_, ?_, ?_, ?_, ?_⟩
  · exact (claim_C6_gate_order cfgW _ [] [] false).1 (by decide)
  · exact (claim_C6_gate_order cfgW _ [] [] false).2.1 rfl (by decide)
  · exact (claim_C6_gate_order cfgW _ [] [] false).2.2.1 rfl (by decide) (by decide)
  · exact (claim_C6_gate_order cfgW _ [⟨"APPROVED", some "a"⟩] [] false).2.2.2.1
      rfl (by decide) (by decide) (by decide)
  · exact (claim_C6_gate_order cfgW _ [⟨"APPROVED", some "a"⟩]
      [⟨"ci", "failure", none⟩] false).2.2.2.2.1
      rfl (by decide) (by decide) (by decide) (by decide)
  · exact (claim_C6_gate_order cfgW _ [⟨"APPROVED", some "a"⟩]
      [⟨"ci", "success", none⟩] false).2.2.2.2.2
      rfl (by decide) (by decide) (by decide) (by decide) (by decide)

/-- The witness configuration with `requireAllChecks` off. -/
def cfgNoReqW : QueueConfig :=
  ⟨false, [], false, [], true, 2, "merge-queue-failed", "merge-queue-conflict"⟩

/-- A witness check list with one real failure, one success, and one
failure whose name is on `cfgW`'s ignore-list. -/
def checksFailW : List CheckStatus :=
  [⟨"lint", "failure", none⟩, ⟨"build", "success", none⟩, ⟨"queue-run", "failure", none⟩]

/-- Witness for C7: trivial pass without the requirement, a failure
reason, a pending reason, a pass, and the ignore-list invariance, all on
concrete check lists. -/
theorem claim_C7_witness :
    checkStatusChecks cfgNoReqW [⟨"lint", "failure", none⟩] = ⟨true, none⟩ ∧
    checkStatusChecks cfgW checksFailW =
      ⟨false, some ("Failed checks: " ++ String.intercalate ", "
        (((remainingChecks cfgW checksFailW).filter
          (fun c => c.status == "failure" || c.status == "cancelled")).map
            CheckStatus.name))⟩ ∧
    checkStatusChecks cfgW [⟨"ci", "pending", none⟩] =
      ⟨false, some ("Pending checks: " ++ String.intercalate ", "
        (((remainingChecks cfgW [⟨"ci", "pending", none⟩]).filter
          (fun c => c.status == "pending")).map CheckStatus.name))⟩ ∧
    checkStatusChecks cfgW [⟨"ci", "success", none⟩] = ⟨true, none⟩ ∧
    checkStatusChecks cfgW checksFailW =
      checkStatusChecks cfgW
        (checksFailW.filter (fun c => !(cfgW.ignoreChecks.contains c.name))) := by
  refine ⟨?_, ?_, ?_, ?_, ?_⟩
  · exact (claim_C7_status_check_evaluation cfgNoReqW _).1 rfl
  · exact ((claim_C7_status_check_evaluation cfgW checksFailW).2.1 rfl).1 (by decide)
  · exact ((claim_C7_status_check_evaluation cfgW _).2.1 rfl).2.1 (by decide) (by decide)
  · exact ((claim_C7_status_check_evaluation cfgW _).2.1 rfl).2.2 (by decide) (by decide)
  · exact (claim_C7_status_check_evaluation cfgW checksFailW).2.2

/-- Witness for C8: a not-behind call is a no-op success, and a
successful update without a SHA becomes a no-SHA failure. -/
theorem claim_C8_witness :
    updateIfBehind ⟨false, ⟨true, false, some "s", none⟩, true⟩ =
      ⟨⟨true, false, none, none⟩, 0⟩ ∧
    updateIfBehind ⟨true, ⟨true, false, none, none⟩, true⟩ =
      ⟨⟨false, false, none,
        some ("Branch update succeeded but " ++ "no SHA" ++ " was returned")⟩, 1⟩ := by
  have h1 := claim_C8_noop_and_missing_sha ⟨false, ⟨true, false, some "s", none⟩, true⟩
  have h2 := claim_C8_noop_and_missing_sha ⟨true, ⟨true, false, none, none⟩, true⟩
  exact ⟨h1.1 rfl, h2.2 rfl rfl rfl rfl⟩

/-- A polled-SHA stream that changes on the fourth fetch. -/
def shasLateW : Nat → String := fun i => if i < 3 then "old" else "new"

/-- Witness for C9: a 409 surfaces as a conflict result, a SHA change on
the fourth fetch surfaces as success with the new SHA, a never-changing
SHA surfaces the did-not-complete error, and a non-GitHub error is
re-raised. -/
theorem claim_C9_witness :
    updateBranch "old" (some ⟨true, some 409, "boom"⟩) (fun _ => "old") =
      .ok ⟨false, true, none, some "Merge conflict detected"⟩ ∧
    updateBranch "old" none shasLateW = .ok ⟨true, false, some (shasLateW 3), none⟩ ∧
    updateBranch "old" none (fun _ => "old") =
      .error ("Failed to update branch: Branch update did not complete in time") ∧
    updateBranch "old" (some ⟨false, none, "network"⟩) (fun _ => "old") =
      .error ("Failed to update branch: " ++ "network") := by
  refine ⟨?_, ?_, ?_, ?_⟩
  · exact (claim_C9_update_branch_poll "old" _ (fun _ => "old")).1 _ rfl rfl (Or.inl rfl)
  · exact (claim_C9_update_branch_poll "old" none shasLateW).2.1 rfl 3 (by omega)
      (fun j hj => by simp [shasLateW, hj]) (by decide)
  · exact (claim_C9_update_branch_poll "old" none (fun _ => "old")).2.2.1 rfl
      (fun j hj => rfl)
  · exact (claim_C9_update_branch_poll "old" _ (fun _ => "old")).2.2.2 _ rfl rfl

/-- Witness for C10: an all-pass snapshot with undetermined mergeability
validates as `valid = true`, and a snapshot that produced the
merge-conflicts reason indeed had `mergeable = false`. -/
theorem claim_C10_witness :
    validate cfgW ⟨"open", false, [], "h", none⟩ [⟨"APPROVED", some "a"⟩]
        [⟨"ci", "success", none⟩] false =
      ⟨true, none, some ⟨true, true, true, true, !false, true⟩⟩ ∧
    (⟨"open", false, [], "h", some false⟩ : PR).mergeable = some false := by
  constructor
  · exact (claim_C10_unknown_mergeable_passes cfgW _ [⟨"APPROVED", some "a"⟩]
      [⟨"ci", "success", none⟩] false).1 rfl rfl (by decide) (by decide) (by decide) (by decide)
  · exact (claim_C10_unknown_mergeable_passes cfgW ⟨"open", false, [], "h", some false⟩
      [⟨"APPROVED", some "a"⟩] [⟨"ci", "success", none⟩] false).2 (by decide)

end MergeQueue
